import Mathlib

/-!
Verification of the cuckoo_distributed pipeline (Go sources) against its
natural-language specification.  The Go code is shallowly embedded: pure
string/struct manipulation becomes Lean functions, the effect of each
handler on the message bus becomes an explicit list of effects, the
results of external HTTP / JSON-decode steps become explicit inputs
(`Option`-valued: `none` models an error / nil pointer), and Go `int` is
modelled as `Int`.
-/

/-! ## Shared core data model (lib package) -/

/-- CritsData (lib): the RepositoryContext tuple carried in every bus
message; eight string fields, as in the Go struct. -/
structure CritsData where
  CritsURL : String
  AnalysisId : String
  ObjectType : String
  ObjectId : String
  Username : String
  ApiKey : String
  MD5 : String
  Source : String
deriving Repr, DecidableEq

/-- FailedMsg (lib): the envelope published to the failed queue. -/
structure FailedMsg where
  Service : String
  Queue : String
  Error : String
  Desc : String
  Msg : String
deriving Repr, DecidableEq

/-- An amqp delivery as observed by the handlers: the routing key it
arrived on and its body (bytes modelled as text, as the Go code itself
does via `string(msg.Body)`). -/
structure AmqpDelivery where
  RoutingKey : String
  Body : String
deriving Repr, DecidableEq

/-- Effects a handler can perform on the bus. `send q b` is
`QueueHandler.Send` on queue `q` with body `b`; `nack m r` is
`msg.Nack(multiple, requeue)`; `ack m` is `msg.Ack(multiple)`. -/
inductive BusEffect where
  | send (queue : String) (body : String)
  | nack (multiple : Bool) (requeue : Bool)
  | ack (multiple : Bool)
deriving Repr, DecidableEq

/-- The parts of the lib.Core state that NackOnError reads: the service
name and the name of the failed queue handed to `lib.Init`. -/
structure Core where
  ServiceName : String
  failedQueue : String
deriving Repr, DecidableEq

/-- Helper modelling `json.Marshal` of a Go string value (quoting; the
escaping of special characters inside the string is not needed by any
claim and is elided). -/
def jsonQuote (s : String) : String := "\"" ++ s ++ "\""

/-- Helper modelling `json.Marshal` of a lib.FailedMsg value (field
order as declared in the Go struct). -/
def jsonEncodeFailedMsg (m : FailedMsg) : String :=
  "\x7b\"Service\":" ++ jsonQuote m.Service ++
  ",\"Queue\":" ++ jsonQuote m.Queue ++
  ",\"Error\":" ++ jsonQuote m.Error ++
  ",\"Desc\":" ++ jsonQuote m.Desc ++
  ",\"Msg\":" ++ jsonQuote m.Msg ++ "\x7d"

/-- NackOnError (lib, part_001 lines 369-395).  Input `err` is the Go
error (`none` = nil).  On a non-nil error it marshals a FailedMsg built
from the service name, the delivery's routing key, the error text, the
description and the delivery body, sends it to the failed queue, nacks
the delivery with multiple=false requeue=false, and returns true; on nil
it does nothing and returns false.  The returned list is the exact
sequence of bus effects. -/
def NackOnError (c : Core) (err : Option String) (desc : String) (msg : AmqpDelivery) :
    List BusEffect × Bool :=
  match err with
  | some e =>
      let jm := jsonEncodeFailedMsg
        { Service := c.ServiceName, Queue := msg.RoutingKey,
          Error := e, Desc := desc, Msg := msg.Body }
      ([BusEffect.send c.failedQueue jm, BusEffect.nack false false], true)
  | none => ([], false)

/-! ## Crits client data model (lib, part_000) -/

/-- Scalar-ish values that appear in a Go `map[string]interface{}`
attribute map in this code base: strings, booleans, ints, and the
api-call arguments array. -/
inductive GoVal where
  | str (s : String)
  | boolean (b : Bool)
  | int (n : Int)
  | args (l : List (String × String))
deriving Repr, DecidableEq

/-- CrtResult (lib): subtype tag, primary value, optional attribute map
(`none` models a nil Go map). -/
structure CrtResult where
  Subtype : String
  Result : String
  Data : Option (List (String × GoVal))
deriving Repr, DecidableEq

/-- CrtDefaultResponse (lib): the decoded body shared by all crits
responses. -/
structure CrtDefaultResponse where
  ReturnCode : Int
  ErrorMsg : String
  Message : String
  Id : String
  Type' : String
deriving Repr, DecidableEq

/-- strconv.FormatBool. -/
def formatBool (b : Bool) : String := if b then "true" else "false"

/-- The boolean-conversion loop at the top of AddResults (part_000
lines 215-219): every native bool value in the attribute map is replaced
by its strconv.FormatBool rendering; other values are untouched. -/
def convertBools (d : List (String × GoVal)) : List (String × GoVal) :=
  d.map (fun kv =>
    match kv.2 with
    | GoVal.boolean b => (kv.1, GoVal.str (formatBool b))
    | v => (kv.1, v))

/-- Helper modelling `json.Marshal` of a single attribute value.  (Key
escaping elided; no claim inspects the encoded text beyond the literal
empty object.) -/
def jsonEncodeGoVal : GoVal → String
  | GoVal.str s => jsonQuote s
  | GoVal.boolean b => formatBool b
  | GoVal.int n => toString n
  | GoVal.args l =>
      "[" ++ String.intercalate ","
        (l.map (fun a => "\x7b\"name\":" ++ jsonQuote a.1 ++ ",\"value\":" ++ jsonQuote a.2 ++ "\x7d")) ++ "]"

/-- Helper modelling `json.Marshal` of an attribute map.  Go serializes
map keys in sorted order; the maps built by this code base are assoc
lists with fixed insertion order, which is what is rendered here (no
claim depends on the serialized key order). -/
def jsonMarshalMap (d : List (String × GoVal)) : String :=
  "\x7b" ++ String.intercalate ","
    (d.map (fun kv => jsonQuote kv.1 ++ ":" ++ jsonEncodeGoVal kv.2)) ++ "\x7d"

/-- The per-record result_type entry of AddResults (part_000 lines
210-227): the literal empty JSON object for a nil map, otherwise the
marshalled map after boolean conversion. -/
def resultTypeString (r : CrtResult) : String :=
  match r.Data with
  | none => "\x7b\x7d"
  | some d => jsonMarshalMap (convertBools d)

/-- The three parallel arrays built by the AddResults loop (part_000
lines 209-232), in the order they are transmitted: result values,
result subtypes, result types.  The Go loop appends one entry per
record to each of the three slices. -/
def buildArrays (results : List CrtResult) :
    List String × List String × List String :=
  (results.map (fun r => r.Result),
   results.map (fun r => r.Subtype),
   results.map resultTypeString)

/-- AddResults' transmission decision (part_000 lines 199-201): a nil or
empty batch returns nil without sending anything; otherwise the three
parallel arrays are built and sent. -/
def addResultsArrays (results : List CrtResult) :
    Option (List String × List String × List String) :=
  if results.isEmpty then none else some (buildArrays results)

/-- AddResults' error decision (part_000 lines 196-275) as a function of
the batch and of the HTTP exchange: `decoded` is the result of
unmarshalling the response body into CrtDefaultResponse (`none` = the
unmarshal error returned through FastPostForm).  An empty batch returns
nil early; an undecodable body is an error; otherwise error iff
status ≠ 200 or return_code ≠ 0 or error_message ≠ "". -/
def AddResults (results : List CrtResult) (status : Nat) (respBody : String)
    (decoded : Option CrtDefaultResponse) : Except String Unit :=
  if results.isEmpty then Except.ok ()
  else
    match decoded with
    | none => Except.error ("unmarshal: " ++ respBody)
    | some r =>
        if status ≠ 200 ∨ r.ReturnCode ≠ 0 ∨ r.ErrorMsg ≠ "" then
          Except.error (toString status ++ " - " ++ respBody)
        else Except.ok ()

/-- NewSample (part_000 lines 69-139) as a function of the file bytes
and the HTTP exchange.  An empty file is rejected locally with the
distinguished "empty file" error; an undecodable response body is an
error; otherwise error iff return_code ≠ 0 or error_message ≠ "".
The `status` argument is the HTTP status code of the response — the Go
function never inspects it (it reads only the body), which is why it
does not occur in the right-hand side. -/
def NewSample (fileData : List Nat) (fileName : String) (status : Nat)
    (respBody : String) (decoded : Option CrtDefaultResponse) : Except String String :=
  if fileData.length = 0 then Except.error "empty file"
  else
    match decoded with
    | none => Except.error ("unmarshal: " ++ respBody)
    | some r =>
        if r.ReturnCode ≠ 0 ∨ r.ErrorMsg ≠ "" then Except.error respBody
        else Except.ok r.Id

/-! ## Cuckoo report data model (lib/cuckoo.go) and the Reporter's
report shaping (parse_and_submit.go) -/

/-- The parse outcomes of the polymorphic `info.machine` raw JSON value
(lib/cuckoo.go line 61: `Machine json.RawMessage`).  Constructors cover
the shapes distinguishable by the two Go unmarshal attempts in
processReportInfo: a nil RawMessage (field absent), a bare JSON string,
an object whose name field is a string, an object without a usable name
field, an object whose name field is not a string, JSON null, and
anything else (number, bool, array, malformed). -/
inductive MachineRaw where
  | missing
  | strVal (s : String)
  | objWithName (name : String)
  | objNoName
  | objBadName
  | nullVal
  | otherVal
deriving Repr, DecidableEq

/-- Go `json.Unmarshal` of the machine raw value into a `string`
variable: succeeds exactly on a bare JSON string (yielding it) and on
JSON null (a no-op that leaves the zero value ""); everything else is an
error (nil bytes included). -/
def goUnmarshalString : MachineRaw → Option String
  | MachineRaw.strVal s => some s
  | MachineRaw.nullVal => some ""
  | _ => none

/-- Go `json.Unmarshal` of the machine raw value into a
CkoTasksReportInfoMachine struct, returning its Name field: succeeds on
an object (Name is the zero value "" if the name field is absent) and on
JSON null (no-op); fails on a bare string, on an object whose name field
is not a string, on nil bytes, and on any other JSON value. -/
def goUnmarshalMachineStruct : MachineRaw → Option String
  | MachineRaw.objWithName n => some n
  | MachineRaw.objNoName => some ""
  | MachineRaw.nullVal => some ""
  | _ => none

/-- The machine-name extraction of processReportInfo
(parse_and_submit.go lines 193-203): first unmarshal into a string,
falling back to "FAILED" on error or empty; then unmarshal into the
struct and, on success, overwrite with the struct's Name. -/
def machineName (m : MachineRaw) : String :=
  let machineString :=
    match goUnmarshalString m with
    | none => "FAILED"
    | some s => if s = "" then "FAILED" else s
  match goUnmarshalMachineStruct m with
  | some name => name
  | none => machineString

/-- CkoTasksReportInfo (lib/cuckoo.go lines 57-62). -/
structure CkoTasksReportInfo where
  Started : String
  Ended : String
  Id : Int
  Machine : MachineRaw
deriving Repr, DecidableEq

/-- processReportInfo (parse_and_submit.go lines 186-211): nil info
yields no records; otherwise a single `info` record whose primary value
is the extracted machine name. -/
def processReportInfo (i : Option CkoTasksReportInfo) : List CrtResult :=
  match i with
  | none => []
  | some i =>
      [{ Subtype := "info", Result := machineName i.Machine,
         Data := some [("started", GoVal.str i.Started),
                       ("ended", GoVal.str i.Ended),
                       ("analysis_id", GoVal.str (toString i.Id))] }]

/-- CkoTasksReportSignature (lib/cuckoo.go lines 68-72). -/
structure CkoTasksReportSignature where
  Severity : Int
  Description : String
  Name : String
deriving Repr, DecidableEq

/-- The contents of the single `resMap` of processReportSignatures
after the loop finished (parse_and_submit.go lines 222-226): the Go
code allocates ONE map before the loop and mutates it each iteration,
so after the loop it holds the last signature's severity and name
(empty for an empty slice). -/
def sigSharedMap (sigs : List CkoTasksReportSignature) : List (String × GoVal) :=
  match sigs.getLast? with
  | none => []
  | some sig => [("severity", GoVal.str (toString sig.Severity)),
                 ("name", GoVal.str sig.Name)]

/-- processReportSignatures (parse_and_submit.go lines 215-236): one
`signature` record per signature in input order with the signature's
description as primary value.  All records alias the one shared
attribute map, whose observable contents (read later by AddResults) are
the final iteration's writes — modelled by giving every record the
post-loop map. -/
def processReportSignatures (sigs : Option (List CkoTasksReportSignature)) :
    List CrtResult :=
  match sigs with
  | none => []
  | some l =>
      l.map (fun sig =>
        { Subtype := "signature", Result := sig.Description,
          Data := some (sigSharedMap l) })

/-! ## Claim theorems (first group) -/

/-- Claim C1: NackOnError with a non-nil error publishes to the
service's failed queue a FailedEnvelope whose Service is the core's
service name, Queue the routing key the delivery arrived on, Error the
error text, Desc the caller description, and Msg the delivery body;
then it nacks the delivery with requeue=false and returns true.  With a
nil error it returns false and performs no bus effect at all. -/
theorem nackOnError_contract (c : Core) (e desc : String) (msg : AmqpDelivery) :
    NackOnError c (some e) desc msg =
      ([BusEffect.send c.failedQueue
          (jsonEncodeFailedMsg
            { Service := c.ServiceName, Queue := msg.RoutingKey,
              Error := e, Desc := desc, Msg := msg.Body }),
        BusEffect.nack false false], true)
    ∧ NackOnError c none desc msg = ([], false) := by
  constructor <;> rfl

/-- Claim C4 (evaluation at the failing input): with two signatures of
distinct severities and names, the code produces both `signature`
records carrying the SECOND signature's severity and name — the shared
attribute map makes the first record's attributes wrong, contradicting
the per-signature attributes the spec mandates. -/
theorem signatures_shared_map_eval :
    processReportSignatures
        (some [{ Severity := 1, Description := "descA", Name := "sigA" },
               { Severity := 2, Description := "descB", Name := "sigB" }]) =
      [{ Subtype := "signature", Result := "descA",
         Data := some [("severity", GoVal.str "2"), ("name", GoVal.str "sigB")] },
       { Subtype := "signature", Result := "descB",
         Data := some [("severity", GoVal.str "2"), ("name", GoVal.str "sigB")] }]
    ∧ (GoVal.str "2" : GoVal) ≠ GoVal.str "1" := by
  constructor
  · rfl
  · decide

/-- Claim C8 (counterexample): the empty string is a bare JSON string,
so the claim demands the machine name "" — but the code maps it to
"FAILED". -/
theorem machineName_empty_string_counterexample :
    machineName (MachineRaw.strVal "") = "FAILED" ∧
    machineName (MachineRaw.strVal "") ≠ "" := by
  constructor
  · rfl
  · decide

/-- Claim C8 (amended): the machine name is the string itself for a
bare non-empty JSON string and "FAILED" for the bare empty string; the
object's name field (defaulting to "") when the field is an object the
struct parse accepts; "FAILED" when the field is missing, is an object
whose name is not a string, or parses as neither shape; JSON null
yields "". -/
theorem machineName_cases_amended :
    (∀ s : String, machineName (MachineRaw.strVal s) = if s = "" then "FAILED" else s)
    ∧ (∀ n : String, machineName (MachineRaw.objWithName n) = n)
    ∧ machineName MachineRaw.objNoName = ""
    ∧ machineName MachineRaw.nullVal = ""
    ∧ machineName MachineRaw.missing = "FAILED"
    ∧ machineName MachineRaw.objBadName = "FAILED"
    ∧ machineName MachineRaw.otherVal = "FAILED" := by
  refine ⟨?_, ?_, rfl, rfl, rfl, rfl, rfl⟩
  · intro s
    by_cases h : s = "" <;> simp [machineName, goUnmarshalString, goUnmarshalMachineStruct, h]
  · intro n
    rfl

/-- Claim C5 (counterexample): NewSample receiving an HTTP 500 response
whose body decodes to return_code 0 and empty error_message returns
success — the claim's "error if the HTTP status is not 200" fails,
because NewSample never inspects the status code. -/
theorem crits_status_ignored_counterexample :
    NewSample [1] "a.exe" 500 "respBody"
        (some { ReturnCode := 0, ErrorMsg := "", Message := "",
                Id := "id1", Type' := "t" }) = Except.ok "id1"
    ∧ (500 : Nat) ≠ 200 := by
  constructor
  · rfl
  · decide

/-- Claim C5 (amended): for a decodable response, AddResults (on a
non-empty batch) fails iff HTTP status ≠ 200 or return_code ≠ 0 or
error_message ≠ ""; NewSample (on a non-empty file) ignores the HTTP
status entirely and fails iff return_code ≠ 0 or error_message ≠ "". -/
theorem crits_error_iff_amended (results : List CrtResult) (fd : List Nat)
    (name respBody : String) (status : Nat) (r : CrtDefaultResponse)
    (hres : results ≠ []) (hfd : fd ≠ []) :
    ((∃ e, AddResults results status respBody (some r) = Except.error e) ↔
      (status ≠ 200 ∨ r.ReturnCode ≠ 0 ∨ r.ErrorMsg ≠ "")) ∧
    ((∃ e, NewSample fd name status respBody (some r) = Except.error e) ↔
      (r.ReturnCode ≠ 0 ∨ r.ErrorMsg ≠ "")) := by
  constructor
  · cases results with
    | nil => exact absurd rfl hres
    | cons x l =>
        by_cases h : status ≠ 200 ∨ r.ReturnCode ≠ 0 ∨ r.ErrorMsg ≠ "" <;>
          simp [AddResults, h]
  · cases fd with
    | nil => exact absurd rfl hfd
    | cons x l =>
        by_cases h : r.ReturnCode ≠ 0 ∨ r.ErrorMsg ≠ "" <;>
          simp [NewSample, h]

/-- Witness for crits_error_iff_amended at a concrete one-record batch,
one-byte file and a 500 response with clean body. -/
theorem crits_error_iff_amended_witness :
    ((∃ e, AddResults [{ Subtype := "info", Result := "m", Data := none }]
        500 "b" (some { ReturnCode := 0, ErrorMsg := "", Message := "",
                        Id := "i", Type' := "t" }) = Except.error e) ↔
      ((500 : Nat) ≠ 200 ∨ (0 : Int) ≠ 0 ∨ ("" : String) ≠ "")) ∧
    ((∃ e, NewSample [1] "a" 500 "b"
        (some { ReturnCode := 0, ErrorMsg := "", Message := "",
                Id := "i", Type' := "t" }) = Except.error e) ↔
      ((0 : Int) ≠ 0 ∨ ("" : String) ≠ "")) :=
  crits_error_iff_amended _ _ _ _ _ _ (by decide) (by decide)

/-- Claim C6: in every batch handed to AddResults, the attribute map
that gets JSON-encoded into the result_type array is the
boolean-converted map, in which no value is a native boolean, and every
boolean of the original map appears rendered as the lowercase string
"true"/"false" under its key. -/
theorem addResults_no_native_booleans (results : List CrtResult) (r : CrtResult)
    (d : List (String × GoVal)) (hr : r ∈ results) (hd : r.Data = some d) :
    resultTypeString r = jsonMarshalMap (convertBools d)
    ∧ (∀ kv ∈ convertBools d, ∀ b : Bool, kv.2 ≠ GoVal.boolean b)
    ∧ (∀ (k : String) (b : Bool), (k, GoVal.boolean b) ∈ d →
        (k, GoVal.str (if b then "true" else "false")) ∈ convertBools d) := by
  refine ⟨by simp [resultTypeString, hd], ?_, ?_⟩
  · intro kv hkv b
    unfold convertBools at hkv
    obtain ⟨kv0, _, heq⟩ := List.mem_map.mp hkv
    cases h2 : kv0.2 <;> rw [h2] at heq <;> rw [← heq] <;> simp
  · intro k b hmem
    simpa [convertBools, formatBool] using
      List.mem_map_of_mem
        (fun kv => match kv.2 with
          | GoVal.boolean b => (kv.1, GoVal.str (formatBool b))
          | v => (kv.1, v)) hmem

/-- Witness for addResults_no_native_booleans at a one-record batch
whose map holds one native boolean. -/
theorem addResults_no_native_booleans_witness :
    resultTypeString { Subtype := "api_call", Result := "x",
                       Data := some [("status", GoVal.boolean true)] } =
      jsonMarshalMap (convertBools [("status", GoVal.boolean true)])
    ∧ (∀ kv ∈ convertBools [("status", GoVal.boolean true)],
        ∀ b : Bool, kv.2 ≠ GoVal.boolean b)
    ∧ (∀ (k : String) (b : Bool),
        (k, GoVal.boolean b) ∈ [("status", GoVal.boolean true)] →
        (k, GoVal.str (if b then "true" else "false")) ∈
          convertBools [("status", GoVal.boolean true)]) :=
  addResults_no_native_booleans
    [{ Subtype := "api_call", Result := "x",
       Data := some [("status", GoVal.boolean true)] }]
    _ _ (by decide) rfl

/-- Claim C7: whenever AddResults actually transmits (non-empty batch),
the three parallel arrays result / result_subtype / result_type all
have length equal to the number of records, and every position whose
record has a nil attribute map carries the literal empty JSON object in
the result_type array. -/
theorem addResults_parallel_arrays (results : List CrtResult)
    (a s t : List String)
    (h : addResultsArrays results = some (a, s, t)) :
    a.length = results.length ∧ s.length = results.length
    ∧ t.length = results.length
    ∧ ∀ (i : Nat) (r : CrtResult), results.get? i = some r → r.Data = none →
        t.get? i = some "\x7b\x7d" := by
  unfold addResultsArrays at h
  by_cases he : results.isEmpty
  · simp [he] at h
  · rw [if_neg he] at h
    rw [Option.some.injEq] at h
    simp only [buildArrays, Prod.mk.injEq] at h
    obtain ⟨ha, hs, ht⟩ := h
    refine ⟨?_, ?_, ?_, ?_⟩
    · rw [← ha]; simp
    · rw [← hs]; simp
    · rw [← ht]; simp
    · intro i r hir hdata
      rw [← ht]
      rw [List.get?_eq_getElem?] at hir
      simp [List.getElem?_map, resultTypeString]
      exact ⟨r, hir, by rw [hdata]⟩

/-- Witness for addResults_parallel_arrays at a concrete two-record
batch, the second record with a nil map. -/
theorem addResults_parallel_arrays_witness :
    (["m", "f"] : List String).length =
        ([{ Subtype := "info", Result := "m",
            Data := some [("started", GoVal.str "s")] },
          { Subtype := "file", Result := "f", Data := none }] :
          List CrtResult).length
    ∧ (["info", "file"] : List String).length =
        ([{ Subtype := "info", Result := "m",
            Data := some [("started", GoVal.str "s")] },
          { Subtype := "file", Result := "f", Data := none }] :
          List CrtResult).length
    ∧ (["\x7b\"started\":\"s\"\x7d", "\x7b\x7d"] : List String).length =
        ([{ Subtype := "info", Result := "m",
            Data := some [("started", GoVal.str "s")] },
          { Subtype := "file", Result := "f", Data := none }] :
          List CrtResult).length
    ∧ ∀ (i : Nat) (r : CrtResult),
        ([{ Subtype := "info", Result := "m",
            Data := some [("started", GoVal.str "s")] },
          { Subtype := "file", Result := "f", Data := none }] :
          List CrtResult).get? i = some r → r.Data = none →
        (["\x7b\"started\":\"s\"\x7d", "\x7b\x7d"] : List String).get? i =
          some "\x7b\x7d" :=
  addResults_parallel_arrays _ _ _ _ rfl

/-! ## Overseer (src/lib/cuckoo.go part: overseer main, lines 330-529) -/

/-- Alias for CritsData, needed because genericMsg's first field carries
the same name as the type. -/
abbrev CritsCtx := CritsData

/-- genericMsg (overseer lines 330-334): probes both capitalizations of
the RepositoryContext field in the embedded original body. -/
structure GenericMsg where
  CritsData : Option CritsCtx
  CritsDataJ : Option CritsCtx
deriving Repr, DecidableEq

/-- The analysis-id extraction of handleFailed (lines 477-486):
CritsData first, then crits_data, else no context. -/
def extractAid (g : GenericMsg) : Option String :=
  match g.CritsData with
  | some cd => some cd.AnalysisId
  | none =>
      match g.CritsDataJ with
      | some cd => some cd.AnalysisId
      | none => none

/-- Unescaping of a quoted-string interior, modelling the subset of Go
strconv.Unquote escape handling exercised by this pipeline (backslash,
quote, n, r, t); any other escape, a lone backslash or an unescaped
interior quote makes the unquote fail. -/
def goUnescape : List Char → Option (List Char)
  | [] => some []
  | '\\' :: c :: rest =>
      match c with
      | '\\' => (goUnescape rest).map (fun l => '\\' :: l)
      | '"' => (goUnescape rest).map (fun l => '"' :: l)
      | 'n' => (goUnescape rest).map (fun l => '\n' :: l)
      | 'r' => (goUnescape rest).map (fun l => '\r' :: l)
      | 't' => (goUnescape rest).map (fun l => '\t' :: l)
      | _ => none
  | ['\\'] => none
  | '"' :: _ => none
  | c :: rest => (goUnescape rest).map (fun l => c :: l)

/-- strconv.Unquote restricted to double-quoted strings: succeeds when
the text is wrapped in double quotes and its interior unescapes. -/
def strconvUnquote (s : String) : Option String :=
  match s.toList with
  | '"' :: rest =>
      match rest.getLast? with
      | some '"' => (goUnescape rest.dropLast).map String.mk
      | _ => none
  | _ => none

/-- The body that resubmit (lines 513-528) sends back to the origin
queue: the embedded original body, unquoted when it is a quoted string,
unchanged otherwise. -/
def resubmitBody (s : String) : String :=
  match strconvUnquote s with
  | some u => u
  | none => s

/-- Terminal disposition of one failed-queue delivery: `dump b` is
dumpMsg (write exactly one new file in DumpDir containing the delivery
body `b`, then ack); `republish q b` is resubmit (send body `b` to the
cached producer of queue `q`) followed by ack. -/
inductive OverseerAction where
  | dump (body : String)
  | republish (queue : String) (body : String)
deriving Repr, DecidableEq

/-- One failed-queue delivery as the Overseer observes it: the raw body,
the result of decoding it as a FailedMsg (parseMsg lines 379-389;
`none` = undecodable), and the result of decoding the embedded Msg as a
genericMsg (handleFailed lines 469-475). -/
structure OverseerDelivery where
  body : String
  decoded : Option FailedMsg
  generic : Option GenericMsg
deriving Repr, DecidableEq

/-- A fully decodable delivery with RepositoryContext present. -/
def mkOverseerDelivery (body : String) (f : FailedMsg) (g : GenericMsg) :
    OverseerDelivery :=
  { body := body, decoded := some f, generic := some g }

/-- parseMsg + handleFailed (lines 379-511) as a transition on the
process-local failure-count map: undecodable body → dump; undecodable
embedded msg → dump; no RepositoryContext → dump; otherwise increment
the analysis id's counter and dump when it exceeds 3, else republish the
(unquoted) embedded body to the envelope's origin queue. -/
def overseerStep (fm : String → Nat) (d : OverseerDelivery) :
    (String → Nat) × OverseerAction :=
  match d.decoded with
  | none => (fm, OverseerAction.dump d.body)
  | some failed =>
      match d.generic with
      | none => (fm, OverseerAction.dump d.body)
      | some gm =>
          match extractAid gm with
          | none => (fm, OverseerAction.dump d.body)
          | some aid =>
              let fm' := fun x => if x = aid then fm aid + 1 else fm x
              if fm' aid > 3 then (fm', OverseerAction.dump d.body)
              else (fm', OverseerAction.republish failed.Queue (resubmitBody failed.Msg))

/-- The Overseer's sequence of dispositions across a sequence of
deliveries, threading the failure-count map. -/
def overseerRun (fm : String → Nat) : List OverseerDelivery → List OverseerAction
  | [] => []
  | d :: rest =>
      let (fm', a) := overseerStep fm d
      a :: overseerRun fm' rest

/-- Counting lemma for the Overseer: over fully decodable deliveries of
one analysis id, starting from counter value k, the i-th delivery is
republished iff k + i + 1 ≤ 3 and dumped otherwise. -/
theorem overseerRun_expected (A : String) :
    ∀ (items : List (String × FailedMsg × GenericMsg)),
      (∀ it ∈ items, extractAid it.2.2 = some A) →
      ∀ (fm : String → Nat) (k : Nat), fm A = k →
      overseerRun fm (items.map (fun it => mkOverseerDelivery it.1 it.2.1 it.2.2)) =
        (items.enumFrom k).map (fun p =>
          if p.1 + 1 > 3 then OverseerAction.dump p.2.1
          else OverseerAction.republish p.2.2.1.Queue (resubmitBody p.2.2.1.Msg)) := by
  intro items
  induction items with
  | nil => intro _ fm k _; rfl
  | cons it rest ih =>
      intro hA fm k hfm
      have hA0 : extractAid it.2.2 = some A := hA it (List.mem_cons_self it rest)
      have hArest : ∀ x ∈ rest, extractAid x.2.2 = some A :=
        fun x hx => hA x (List.mem_cons_of_mem it hx)
      have hstep : overseerStep fm (mkOverseerDelivery it.1 it.2.1 it.2.2) =
          ((fun x => if x = A then fm A + 1 else fm x),
           if k + 1 > 3 then OverseerAction.dump it.1
           else OverseerAction.republish it.2.1.Queue (resubmitBody it.2.1.Msg)) := by
        simp only [overseerStep, mkOverseerDelivery, hA0]
        by_cases h34 : k + 1 > 3 <;> simp [hfm, h34]
      have hrest := ih hArest (fun x => if x = A then fm A + 1 else fm x) (k + 1)
        (by simp [hfm])
      simp only [List.map_cons, List.enumFrom_cons, overseerRun, hstep]
      rw [hrest]

/-- Claim C2: starting from an unseen analysis id, a run of fully
decodable FailedEnvelope deliveries all carrying that id is republished
(embedded body, unquoted if quoted, to the envelope's origin queue) on
each of the first three deliveries, and every later delivery — the
fourth in particular — is dumped (dumpMsg writes exactly one file and
performs no republish), so the id is never republished more than 3
times before dumping. -/
theorem overseer_retry_budget (A : String)
    (items : List (String × FailedMsg × GenericMsg))
    (hA : ∀ it ∈ items, extractAid it.2.2 = some A)
    (fm : String → Nat) (hfm : fm A = 0) :
    ∀ (i : Nat) (it : String × FailedMsg × GenericMsg), items.get? i = some it →
      (overseerRun fm (items.map (fun it => mkOverseerDelivery it.1 it.2.1 it.2.2))).get? i =
        some (if i < 3
              then OverseerAction.republish it.2.1.Queue (resubmitBody it.2.1.Msg)
              else OverseerAction.dump it.1) := by
  intro i it hit
  rw [overseerRun_expected A items hA fm 0 hfm]
  rw [List.get?_eq_getElem?] at hit ⊢
  rw [List.getElem?_map, List.getElem?_enumFrom, hit]
  by_cases h : i < 3
  · simp only [Option.map_some', Option.some.injEq]
    rw [if_neg (by omega), if_pos h]
  · simp only [Option.map_some', Option.some.injEq]
    rw [if_pos (by omega), if_neg h]

/-- Concrete RepositoryContext used by the overseer witness. -/
def witnessCrits : CritsData := ⟨"u", "aid1", "t", "o", "n", "k", "h", "s"⟩

/-- Four concrete fully-decodable deliveries of the same analysis id. -/
def witnessItems : List (String × FailedMsg × GenericMsg) :=
  [("b1", ⟨"feed_cuckoo", "submit", "e1", "d1", "m1"⟩, ⟨some witnessCrits, none⟩),
   ("b2", ⟨"feed_cuckoo", "submit", "e2", "d2", "m2"⟩, ⟨some witnessCrits, none⟩),
   ("b3", ⟨"feed_cuckoo", "submit", "e3", "d3", "m3"⟩, ⟨some witnessCrits, none⟩),
   ("b4", ⟨"feed_cuckoo", "submit", "e4", "d4", "m4"⟩, ⟨some witnessCrits, none⟩)]

/-- Witness for overseer_retry_budget: four identical-id deliveries;
the fourth (index 3) is dumped. -/
theorem overseer_retry_budget_witness :
    (overseerRun (fun _ => 0)
        (witnessItems.map (fun it => mkOverseerDelivery it.1 it.2.1 it.2.2))).get? 3 =
      some (if 3 < 3
            then OverseerAction.republish "submit" (resubmitBody "m4")
            else OverseerAction.dump "b4") :=
  overseer_retry_budget "aid1" witnessItems (by decide) (fun _ => 0) rfl 3 _ rfl

/-! ## Cuckoo status + Feeder admission control (lib/cuckoo.go lines
19-37, 147-159; feed_cuckoo.go lines 92-121) -/

/-- CkoStatusTasks (lib/cuckoo.go lines 24-27). -/
structure CkoStatusTasks where
  Running : Int
  Pending : Int
deriving Repr, DecidableEq

/-- CkoStatusSamples (lib/cuckoo.go lines 33-37). -/
structure CkoStatusSamples where
  Total : Int
  Free : Int
  Used : Int
deriving Repr, DecidableEq

/-- CkoStatusDiskspace (lib/cuckoo.go lines 29-31); Analyses is a Go
pointer, `none` = nil. -/
structure CkoStatusDiskspace where
  Analyses : Option CkoStatusSamples
deriving Repr, DecidableEq

/-- CkoStatus (lib/cuckoo.go lines 19-22); both fields are Go pointers,
`none` = nil (absent in the decoded JSON). -/
structure CkoStatus where
  Tasks : Option CkoStatusTasks
  Diskspace : Option CkoStatusDiskspace
deriving Repr, DecidableEq

/-- The Feeder's slowdown-loop condition (feed_cuckoo.go line 97):
`cStatus.Tasks.Pending >= maxPending || (checkFreeSpace &&
cStatus.Diskspace.Analyses.Free <= 256*1024*1024)`, with Go's
short-circuit evaluation; `none` models the panic from dereferencing a
nil pointer along the way. -/
def slowdownCond (maxPending : Int) (checkFreeSpace : Bool) (s : CkoStatus) :
    Option Bool :=
  match s.Tasks with
  | none => none
  | some tasks =>
      if tasks.Pending ≥ maxPending then some true
      else if checkFreeSpace then
        match s.Diskspace with
        | none => none
        | some ds =>
            match ds.Analyses with
            | none => none
            | some an => some (decide (an.Free ≤ 256 * 1024 * 1024))
      else some false

/-- One pass of the slowdown loop body: the Feeder logs the slowdown
message, sleeps 30 seconds and re-polls GetStatus. -/
inductive FeederEvent where
  | slowdown
deriving Repr, DecidableEq

/-- Outcome of the admission-control loop: `crash` models the nil
dereference after a failed GetStatus (or of a nil inner field);
`fuelOut` means the supplied fuel ran out while the loop was still
blocking; `proceed n` means the loop exited with poll n as the most
recently polled status, after which NewTask is issued. -/
inductive AdmissionResult where
  | crash
  | fuelOut
  | proceed (n : Nat)
deriving Repr, DecidableEq

/-- The admission-control loop of handleSubmit (feed_cuckoo.go lines
93-101).  `polls i` is the result of the (i+1)-th `cuckoo.GetStatus()`
call: `none` when GetStatus returned an error (its record is then nil —
the error itself is discarded by the code, as modelled by the domain of
`polls`).  The loop checks the condition on the most recent poll; while
it holds it emits one slowdown event and re-polls.  `fuel` bounds the
number of re-polls so the loop is total. -/
def admissionLoop (maxPending : Int) (checkFreeSpace : Bool)
    (polls : Nat → Option CkoStatus) :
    Nat → Nat → List FeederEvent × AdmissionResult
  | 0, i =>
    match polls i with
    | none => ([], AdmissionResult.crash)
    | some s =>
        match slowdownCond maxPending checkFreeSpace s with
        | none => ([], AdmissionResult.crash)
        | some false => ([], AdmissionResult.proceed i)
        | some true => ([], AdmissionResult.fuelOut)
  | fuel' + 1, i =>
    match polls i with
    | none => ([], AdmissionResult.crash)
    | some s =>
        match slowdownCond maxPending checkFreeSpace s with
        | none => ([], AdmissionResult.crash)
        | some false => ([], AdmissionResult.proceed i)
        | some true =>
            (FeederEvent.slowdown ::
              (admissionLoop maxPending checkFreeSpace polls fuel' (i + 1)).1,
             (admissionLoop maxPending checkFreeSpace polls fuel' (i + 1)).2)

/-- handleSubmit's upload decision (feed_cuckoo.go lines 92-103): the
NewTask upload is issued exactly when the admission loop exits normally;
`some n` records that poll n is the most recently polled status at
upload time. -/
def handleSubmitUpload (maxPending : Int) (checkFreeSpace : Bool)
    (polls : Nat → Option CkoStatus) (fuel : Nat) : Option Nat :=
  match (admissionLoop maxPending checkFreeSpace polls fuel 0).2 with
  | AdmissionResult.proceed n => some n
  | _ => none

/-- Shape of a normal admission-loop exit, for any start index: the
final poll passes the condition, every earlier poll from the start
index failed it (triggering one slowdown event each). -/
theorem admissionLoop_proceed (m : Int) (cf : Bool)
    (polls : Nat → Option CkoStatus) :
    ∀ (fuel i n : Nat),
      (admissionLoop m cf polls fuel i).2 = AdmissionResult.proceed n →
      i ≤ n
      ∧ (∃ s, polls n = some s ∧ slowdownCond m cf s = some false)
      ∧ (∀ j, i ≤ j → j < n →
          ∃ s, polls j = some s ∧ slowdownCond m cf s = some true)
      ∧ (admissionLoop m cf polls fuel i).1 =
          List.replicate (n - i) FeederEvent.slowdown := by
  intro fuel
  induction fuel with
  | zero =>
      intro i n h
      simp only [admissionLoop] at h ⊢
      cases hp : polls i with
      | none =>
          simp only [hp] at h
          exact AdmissionResult.noConfusion h
      | some s =>
          simp only [hp] at h ⊢
          cases hc : slowdownCond m cf s with
          | none =>
              simp only [hc] at h
              exact AdmissionResult.noConfusion h
          | some b =>
              simp only [hc] at h ⊢
              cases b with
              | false =>
                  simp only [AdmissionResult.proceed.injEq] at h
                  subst h
                  exact ⟨le_refl i, ⟨s, hp, hc⟩,
                         fun j h1 h2 => absurd (lt_of_le_of_lt h1 h2) (lt_irrefl i),
                         by simp⟩
              | true => exact AdmissionResult.noConfusion h
  | succ fuel' ih =>
      intro i n h
      simp only [admissionLoop] at h ⊢
      cases hp : polls i with
      | none =>
          simp only [hp] at h
          exact AdmissionResult.noConfusion h
      | some s =>
          simp only [hp] at h ⊢
          cases hc : slowdownCond m cf s with
          | none =>
              simp only [hc] at h
              exact AdmissionResult.noConfusion h
          | some b =>
              simp only [hc] at h ⊢
              cases b with
              | false =>
                  simp only [AdmissionResult.proceed.injEq] at h
                  subst h
                  exact ⟨le_refl i, ⟨s, hp, hc⟩,
                         fun j h1 h2 => absurd (lt_of_le_of_lt h1 h2) (lt_irrefl i),
                         by simp⟩
              | true =>
                  obtain ⟨h1, h2, h3, h4⟩ := ih (i + 1) n h
                  refine ⟨by omega, h2, ?_, ?_⟩
                  · intro j hij hjn
                    rcases Nat.eq_or_lt_of_le hij with heq | hlt
                    · exact heq ▸ ⟨s, hp, hc⟩
                    · exact h3 j hlt hjn
                  · rw [h4]
                    have hni : n - i = (n - (i + 1)) + 1 := by omega
                    rw [hni, List.replicate_succ]

/-- Unpacking of a passing admission condition: the pending count is
strictly below MaxPending and, when the free-space check is enabled,
the free bytes of the analyses partition strictly exceed 256 MiB. -/
theorem slowdownCond_false_unpack (m : Int) (cf : Bool) (s : CkoStatus)
    (h : slowdownCond m cf s = some false) :
    ∃ tasks, s.Tasks = some tasks ∧ tasks.Pending < m ∧
      (cf = true → ∃ ds an, s.Diskspace = some ds ∧ ds.Analyses = some an ∧
        256 * 1024 * 1024 < an.Free) := by
  unfold slowdownCond at h
  cases ht : s.Tasks with
  | none =>
      simp only [ht] at h
      exact Option.noConfusion h
  | some tasks =>
      simp only [ht] at h
      by_cases hpm : tasks.Pending ≥ m
      · rw [if_pos hpm] at h
        exact Option.noConfusion h (fun hb => Bool.noConfusion hb)
      · rw [if_neg hpm] at h
        refine ⟨tasks, rfl, by omega, ?_⟩
        intro hcf
        rw [hcf, if_pos rfl] at h
        cases hd : s.Diskspace with
        | none =>
            simp only [hd] at h
            exact Option.noConfusion h
        | some ds =>
            simp only [hd] at h
            cases ha : ds.Analyses with
            | none =>
                simp only [ha] at h
                exact Option.noConfusion h
            | some an =>
                simp only [ha, Option.some.injEq] at h
                refine ⟨ds, an, rfl, ha, ?_⟩
                have := of_decide_eq_false h
                omega

/-- Claim C3: whenever handleSubmit reaches the NewTask upload with
poll n as the most recently polled status, that status passed both
admission conditions (pending < MaxPending and, with CheckFreeSpace
enabled, free > 256 MiB), every earlier poll failed the condition, and
the loop performed exactly one slowdown (log + 30 s sleep + re-poll)
per failed poll — so no upload happens while the latest status reports
pending ≥ MaxPending or (when enabled) free ≤ 256 MiB. -/
theorem feeder_admission_control (m : Int) (cf : Bool)
    (polls : Nat → Option CkoStatus) (fuel n : Nat)
    (h : handleSubmitUpload m cf polls fuel = some n) :
    (∃ s, polls n = some s ∧ ∃ tasks, s.Tasks = some tasks ∧
      tasks.Pending < m ∧
      (cf = true → ∃ ds an, s.Diskspace = some ds ∧ ds.Analyses = some an ∧
        256 * 1024 * 1024 < an.Free))
    ∧ (∀ j, j < n → ∃ s, polls j = some s ∧ slowdownCond m cf s = some true)
    ∧ (admissionLoop m cf polls fuel 0).1 =
        List.replicate n FeederEvent.slowdown := by
  unfold handleSubmitUpload at h
  cases hr : (admissionLoop m cf polls fuel 0).2 with
  | crash =>
      simp only [hr] at h
      exact Option.noConfusion h
  | fuelOut =>
      simp only [hr] at h
      exact Option.noConfusion h
  | proceed k =>
      simp only [hr, Option.some.injEq] at h
      subst h
      obtain ⟨h1, ⟨s, hs, hcond⟩, h3, h4⟩ :=
        admissionLoop_proceed m cf polls fuel 0 k hr
      refine ⟨⟨s, hs, slowdownCond_false_unpack m cf s hcond⟩, ?_, ?_⟩
      · intro j hj
        exact h3 j (Nat.zero_le j) hj
      · rw [h4, Nat.sub_zero]

/-- A status passing both admission conditions: 0 pending (below 5) and
256 MiB + 1 byte free. -/
def feederOkStatus : CkoStatus :=
  ⟨some ⟨0, 0⟩, some ⟨some ⟨0, 268435457, 0⟩⟩⟩

/-- A GetStatus sequence that always succeeds with feederOkStatus. -/
def feederOkPolls : Nat → Option CkoStatus := fun _ => some feederOkStatus

/-- Witness for feeder_admission_control: with an immediately passing
status the upload happens after poll 0 and no slowdown events. -/
theorem feeder_admission_control_witness :
    (∃ s, feederOkPolls 0 = some s ∧ ∃ tasks, s.Tasks = some tasks ∧
      tasks.Pending < 5 ∧
      (true = true → ∃ ds an, s.Diskspace = some ds ∧ ds.Analyses = some an ∧
        256 * 1024 * 1024 < an.Free))
    ∧ (∀ j, j < 0 → ∃ s, feederOkPolls j = some s ∧
        slowdownCond 5 true s = some true)
    ∧ (admissionLoop 5 true feederOkPolls 1 0).1 =
        List.replicate 0 FeederEvent.slowdown :=
  feeder_admission_control 5 true feederOkPolls 1 0 rfl

/-- The admission loop crashes when, after any number of blocked polls,
a poll returns none (GetStatus failed, record nil), for any start
index. -/
theorem admissionLoop_crash_aux (m : Int) (cf : Bool)
    (polls : Nat → Option CkoStatus) :
    ∀ (k fuel i : Nat), k ≤ fuel →
      (∀ j, j < k → ∃ s, polls (i + j) = some s ∧
        slowdownCond m cf s = some true) →
      polls (i + k) = none →
      (admissionLoop m cf polls fuel i).2 = AdmissionResult.crash := by
  intro k
  induction k with
  | zero =>
      intro fuel i _ _ hnone
      rw [Nat.add_zero] at hnone
      cases fuel <;> simp only [admissionLoop, hnone]
  | succ k' ih =>
      intro fuel i hk hall hnone
      obtain ⟨s, hs, hc⟩ := hall 0 (Nat.succ_pos k')
      rw [Nat.add_zero] at hs
      cases fuel with
      | zero => omega
      | succ fuel' =>
          simp only [admissionLoop, hs, hc]
          apply ih fuel' (i + 1) (by omega)
          · intro j hj
            obtain ⟨s', hs', hc'⟩ := hall (j + 1) (by omega)
            exact ⟨s', by rw [show i + 1 + j = i + (j + 1) by omega]; exact hs', hc'⟩
          · rw [show i + 1 + k' = i + (k' + 1) by omega]; exact hnone

/-- Claim C10: handleSubmit discards GetStatus errors (the model's poll
sequence carries only the possibly-nil record), and whenever a
GetStatus call made by the admission loop fails — after any number of
successfully blocked polls within fuel — the loop dereferences the nil
record and the run crashes; in particular no upload decision is ever
produced.  The loop is thus well-defined only when every GetStatus call
succeeds. -/
theorem feeder_getStatus_unguarded (m : Int) (cf : Bool)
    (polls : Nat → Option CkoStatus) (fuel k : Nat)
    (hk : k ≤ fuel)
    (hall : ∀ j, j < k → ∃ s, polls j = some s ∧
      slowdownCond m cf s = some true)
    (hnone : polls k = none) :
    (admissionLoop m cf polls fuel 0).2 = AdmissionResult.crash
    ∧ handleSubmitUpload m cf polls fuel = none := by
  have hcrash := admissionLoop_crash_aux m cf polls k fuel 0 hk
    (by intro j hj; simpa using hall j hj) (by simpa using hnone)
  refine ⟨hcrash, ?_⟩
  unfold handleSubmitUpload
  simp only [hcrash]

/-- Witness for feeder_getStatus_unguarded: the very first GetStatus
fails; the loop crashes at once. -/
theorem feeder_getStatus_unguarded_witness :
    (admissionLoop 1 false (fun _ => none) 0 0).2 = AdmissionResult.crash
    ∧ handleSubmitUpload 1 false (fun _ => none) 0 = none :=
  feeder_getStatus_unguarded 1 false (fun _ => none) 0 0 (le_refl 0)
    (by intro j hj; omega) rfl

/-! ## Reporter behavior shaping (lib/cuckoo.go lines 74-108,
parse_and_submit.go lines 240-329) -/

/-- CkoTasksReportBhvPcsCall (lib/cuckoo.go lines 87-97); the Arguments
slice of \x7bname, value\x7d structs is modelled as name/value pairs. -/
structure CkoTasksReportBhvPcsCall where
  Category : String
  Status : Bool
  Return : String
  Timestamp : String
  ThreadId : String
  Repeated : Int
  Api : String
  Arguments : List (String × String)
  Id : Int
deriving Repr, DecidableEq

/-- CkoTasksReportBhvPcs (lib/cuckoo.go lines 79-85). -/
structure CkoTasksReportBhvPcs where
  Name : String
  Id : Int
  ParentId : Int
  FirstSeen : String
  Calls : List CkoTasksReportBhvPcsCall
deriving Repr, DecidableEq

/-- CkoTasksReportBhvSummary (lib/cuckoo.go lines 104-108); nil slices
are `none`. -/
structure CkoTasksReportBhvSummary where
  Files : Option (List String)
  Keys : Option (List String)
  Mutexes : Option (List String)
deriving Repr, DecidableEq

/-- CkoTasksReportBehavior (lib/cuckoo.go lines 74-77); both fields are
Go pointers/slices, `none` = nil. -/
structure CkoTasksReportBehavior where
  Processes : Option (List CkoTasksReportBhvPcs)
  Summary : Option CkoTasksReportBhvSummary
deriving Repr, DecidableEq

/-- The contents of the single outer `resMap` of processReportBehavior
after the process loop finished (parse_and_submit.go lines 246-259):
one map allocated before the loop, mutated per iteration, so its
observable contents are the last process's writes. -/
def procSharedMap (procs : List CkoTasksReportBhvPcs) : List (String × GoVal) :=
  match procs.getLast? with
  | none => []
  | some p => [("process_id", GoVal.str (toString p.Id)),
               ("parent_id", GoVal.str (toString p.ParentId)),
               ("first_seen", GoVal.str p.FirstSeen)]

/-- The process description `fmt.Sprintf("%s (%d)", p.Name, p.Id)`
(parse_and_submit.go line 269). -/
def procDescription (p : CkoTasksReportBhvPcs) : String :=
  p.Name ++ " (" ++ toString p.Id ++ ")"

/-- The per-call attribute map of the api-call loop
(parse_and_submit.go lines 276-286); a FRESH map per record. -/
def apiCallMap (desc : String) (c : CkoTasksReportBhvPcsCall) :
    List (String × GoVal) :=
  [("category", GoVal.str c.Category), ("status", GoVal.boolean c.Status),
   ("return", GoVal.str c.Return), ("timestamp", GoVal.str c.Timestamp),
   ("thread_id", GoVal.str c.ThreadId), ("repeated", GoVal.int c.Repeated),
   ("api", GoVal.str c.Api), ("id", GoVal.int c.Id),
   ("process", GoVal.str desc), ("arguments", GoVal.args c.Arguments)]

/-- One api_call result record (parse_and_submit.go lines 288-292). -/
def apiCallRecord (desc : String) (c : CkoTasksReportBhvPcsCall) : CrtResult :=
  { Subtype := "api_call", Result := c.Api, Data := some (apiCallMap desc c) }

/-- The inner call loop of the api-call block (parse_and_submit.go
lines 270-294): before each call the global counter is compared with
pushApiCallsMax; reaching the cap breaks out of this process's calls;
otherwise the record is emitted and the counter incremented. -/
def pushCallsProc (maxCalls : Int) (desc : String) :
    Nat → List CkoTasksReportBhvPcsCall → List CrtResult × Nat
  | counter, [] => ([], counter)
  | counter, c :: rest =>
      if (counter : Int) ≥ maxCalls then ([], counter)
      else
        (apiCallRecord desc c :: (pushCallsProc maxCalls desc (counter + 1) rest).1,
         (pushCallsProc maxCalls desc (counter + 1) rest).2)

/-- The outer process loop of the api-call block (parse_and_submit.go
lines 267-295): the counter is global across processes, while the break
only leaves one process's calls. -/
def pushCallsOuter (maxCalls : Int) :
    Nat → List CkoTasksReportBhvPcs → List CrtResult × Nat
  | counter, [] => ([], counter)
  | counter, p :: rest =>
      (((pushCallsProc maxCalls (procDescription p) counter p.Calls).1 ++
          (pushCallsOuter maxCalls
            (pushCallsProc maxCalls (procDescription p) counter p.Calls).2 rest).1),
       (pushCallsOuter maxCalls
          (pushCallsProc maxCalls (procDescription p) counter p.Calls).2 rest).2)

/-- The full process-then-call iteration order of api-call records:
every call of every process, uncapped. -/
def apiCallStream (procs : List CkoTasksReportBhvPcs) : List CrtResult :=
  (procs.map (fun p => p.Calls.map (apiCallRecord (procDescription p)))).flatten

/-- processReportBehavior (parse_and_submit.go lines 240-329): nil
behavior yields no records; otherwise process records (sharing one
mutated map), then api_call records up to the global cap, then summary
file / registry_key / mutex records with nil maps.  The Go code
dereferences behavior.Summary without a nil check, so a nil Summary
panics — modelled as `none`. -/
def processReportBehavior (pushApiCallsMax : Int)
    (behavior : Option CkoTasksReportBehavior) : Option (List CrtResult) :=
  match behavior with
  | none => some []
  | some b =>
      let part1 :=
        match b.Processes with
        | none => []
        | some procs =>
            procs.map (fun p =>
              { Subtype := "process", Result := p.Name,
                Data := some (procSharedMap procs) })
      let part2 :=
        match b.Processes with
        | none => []
        | some procs => (pushCallsOuter pushApiCallsMax 0 procs).1
      match b.Summary with
      | none => none
      | some summary =>
          let part3 :=
            match summary.Files with
            | none => []
            | some fs => fs.map (fun f =>
                { Subtype := "file", Result := f, Data := none })
          let part4 :=
            match summary.Keys with
            | none => []
            | some ks => ks.map (fun k =>
                { Subtype := "registry_key", Result := k, Data := none })
          let part5 :=
            match summary.Mutexes with
            | none => []
            | some ms => ms.map (fun mu =>
                { Subtype := "mutex", Result := mu, Data := none })
          some (part1 ++ part2 ++ part3 ++ part4 ++ part5)

/-- The inner call loop emits exactly the calls taken up to the
remaining budget, and advances the counter by the number emitted. -/
theorem pushCallsProc_eq (maxCalls : Int) (desc : String) :
    ∀ (calls : List CkoTasksReportBhvPcsCall) (counter : Nat),
      pushCallsProc maxCalls desc counter calls =
        ((calls.map (apiCallRecord desc)).take (maxCalls.toNat - counter),
         counter + min calls.length (maxCalls.toNat - counter)) := by
  intro calls
  induction calls with
  | nil => intro counter; simp [pushCallsProc]
  | cons c rest ih =>
      intro counter
      rw [pushCallsProc]
      by_cases hge : (counter : Int) ≥ maxCalls
      · rw [if_pos hge]
        have h0 : maxCalls.toNat - counter = 0 := by omega
        simp [h0]
      · rw [if_neg hge]
        have hlt : counter < maxCalls.toNat := by omega
        rw [ih (counter + 1)]
        rw [Prod.mk.injEq]
        constructor
        · rw [List.map_cons]
          rw [show maxCalls.toNat - counter = (maxCalls.toNat - (counter + 1)) + 1 by omega]
          rw [List.take_succ_cons]
        · simp only [List.length_cons]
          omega

/-- The outer process loop emits exactly the process-then-call stream
taken up to the remaining budget. -/
theorem pushCallsOuter_eq (maxCalls : Int) :
    ∀ (procs : List CkoTasksReportBhvPcs) (counter : Nat),
      pushCallsOuter maxCalls counter procs =
        ((apiCallStream procs).take (maxCalls.toNat - counter),
         counter + min (apiCallStream procs).length (maxCalls.toNat - counter)) := by
  intro procs
  induction procs with
  | nil => intro counter; simp [pushCallsOuter, apiCallStream]
  | cons p rest ih =>
      intro counter
      rw [pushCallsOuter, pushCallsProc_eq, ih]
      have hstream : apiCallStream (p :: rest) =
          p.Calls.map (apiCallRecord (procDescription p)) ++ apiCallStream rest := by
        simp [apiCallStream]
      rw [hstream]
      have hlen : (p.Calls.map (apiCallRecord (procDescription p))).length =
          p.Calls.length := List.length_map _ _
      rw [Prod.mk.injEq]
      constructor
      · rw [List.take_append_eq_append_take, hlen]
        have harith : maxCalls.toNat -
              (counter + min p.Calls.length (maxCalls.toNat - counter)) =
            maxCalls.toNat - counter - p.Calls.length := by omega
        rw [harith]
      · rw [List.length_append, hlen]
        omega

/-- Every record of the uncapped api-call stream has subtype
api_call. -/
theorem apiCallStream_subtype (procs : List CkoTasksReportBhvPcs) :
    ∀ r ∈ apiCallStream procs, r.Subtype = "api_call" := by
  intro r hr
  simp only [apiCallStream, List.mem_flatten, List.mem_map] at hr
  obtain ⟨l, ⟨p, hp, hl⟩, hrl⟩ := hr
  subst hl
  obtain ⟨c, hc, hrc⟩ := List.mem_map.mp hrl
  subst hrc
  rfl

/-- Claim C9: in every behavior section processReportBehavior accepts
(non-nil summary), the api_call records are exactly the
process-then-call iteration stream cut off at the global cap
PushApiCallsMax: their number never exceeds the cap, and a cap of 0
yields no api_call record regardless of the processes. -/
theorem apiCalls_capped (maxCalls : Int) (b : CkoTasksReportBehavior)
    (res : List CrtResult) (hM : 0 ≤ maxCalls)
    (h : processReportBehavior maxCalls (some b) = some res) :
    res.filter (fun r => r.Subtype == "api_call") =
      (match b.Processes with
       | none => []
       | some procs => (apiCallStream procs).take maxCalls.toNat)
    ∧ ((res.filter (fun r => r.Subtype == "api_call")).length : Int) ≤ maxCalls
    ∧ (maxCalls = 0 → res.filter (fun r => r.Subtype == "api_call") = []) := by
  unfold processReportBehavior at h
  cases hs : b.Summary with
  | none =>
      simp only [hs] at h
      exact Option.noConfusion h
  | some summary =>
      simp only [hs, Option.some.injEq] at h
      have hfile : ∀ (l : Option (List String)) (tag : String),
          tag ≠ "api_call" →
          (match l with
           | none => ([] : List CrtResult)
           | some fs => fs.map (fun f =>
               { Subtype := tag, Result := f, Data := none })).filter
            (fun r : CrtResult => r.Subtype == "api_call") = [] := by
        intro l tag htag
        cases l with
        | none => rfl
        | some fs =>
            apply List.filter_eq_nil_iff.mpr
            intro r hr
            obtain ⟨f, hf, hrf⟩ := List.mem_map.mp hr
            subst hrf
            simpa using htag
      cases hp : b.Processes with
      | none =>
          simp only [hp] at h
          subst h
          rw [List.nil_append, List.nil_append]
          rw [List.filter_append, List.filter_append]
          rw [hfile summary.Files "file" (by decide),
              hfile summary.Keys "registry_key" (by decide),
              hfile summary.Mutexes "mutex" (by decide)]
          refine ⟨rfl, by simpa using hM, fun _ => rfl⟩
      | some procs =>
          simp only [hp] at h
          subst h
          rw [List.filter_append, List.filter_append, List.filter_append,
              List.filter_append]
          have h1 : (procs.map (fun p =>
              { Subtype := "process", Result := p.Name,
                Data := some (procSharedMap procs) : CrtResult })).filter
              (fun r => r.Subtype == "api_call") = [] := by
            apply List.filter_eq_nil_iff.mpr
            intro r hr
            obtain ⟨p, hp2, hrp⟩ := List.mem_map.mp hr
            subst hrp
            simp
          have h2 : ((pushCallsOuter maxCalls 0 procs).1).filter
              (fun r => r.Subtype == "api_call") =
              (apiCallStream procs).take maxCalls.toNat := by
            rw [pushCallsOuter_eq, Nat.sub_zero]
            apply List.filter_eq_self.mpr
            intro r hr
            have := apiCallStream_subtype procs r (List.take_subset _ _ hr)
            simp [this]
          rw [h1, h2,
              hfile summary.Files "file" (by decide),
              hfile summary.Keys "registry_key" (by decide),
              hfile summary.Mutexes "mutex" (by decide)]
          rw [List.nil_append, List.append_nil, List.append_nil, List.append_nil]
          refine ⟨rfl, ?_, ?_⟩
          · rw [List.length_take]
            omega
          · intro h0
            rw [h0]
            rfl

/-- A concrete behavior section: two processes with three calls in
total, a one-file summary. -/
def witnessBehavior : CkoTasksReportBehavior :=
  { Processes := some
      [⟨"a.exe", 1, 0, "t0",
        [⟨"filesystem", true, "0", "ts1", "th1", 1, "NtCreateFile", [("path", "C:\\x")], 11⟩,
         ⟨"registry", false, "1", "ts2", "th2", 2, "RegOpenKey", [], 12⟩]⟩,
       ⟨"b.exe", 2, 1, "t1",
        [⟨"network", true, "0", "ts3", "th3", 1, "connect", [("host", "h")], 13⟩]⟩],
    Summary := some ⟨some ["f1"], none, none⟩ }

/-- The record list the code produces for witnessBehavior with cap 2. -/
def witnessBehaviorRes : List CrtResult :=
  (processReportBehavior 2 (some witnessBehavior)).getD []

/-- Witness for apiCalls_capped: cap 2 over three calls emits exactly
the first two api_call records of the iteration order. -/
theorem apiCalls_capped_witness :
    witnessBehaviorRes.filter (fun r => r.Subtype == "api_call") =
      (match witnessBehavior.Processes with
       | none => []
       | some procs => (apiCallStream procs).take (2 : Int).toNat)
    ∧ ((witnessBehaviorRes.filter (fun r => r.Subtype == "api_call")).length : Int) ≤ 2
    ∧ ((2 : Int) = 0 →
        witnessBehaviorRes.filter (fun r => r.Subtype == "api_call") = []) :=
  apiCalls_capped 2 witnessBehavior witnessBehaviorRes (by decide) rfl
